import Mathlib

/-!
Shallow embedding of the `shortstr` Python module (src/shortstr/__init__.py).

Strings are modelled as `List Char`; bytes as `Nat` (always < 256); the
32-bit Adler-32 checksum (`zlib.adler32`) as a `Nat` built from the two
16-bit halves modulo 65521.  Fallible operations (functions that raise
`ShortStrException`) return `Except String`.  The process entropy source
`random.SystemRandom` is modelled as an arbitrary stream of natural-number
draws: `SYS_RAND.choice(seq)` at step `k` picks `seq[r k % len(seq)]`, so
every concrete run of the Python code corresponds to some stream `r`.
-/

set_option autoImplicit false

/-- The glyph alphabet constant `GLYPHS` from the source: the homoglyphs
l, I, o, O, 0, 1 are absent. -/
def GLYPHS : List Char := "abcdefghijkmnpqrstuvwxyzABCDEFGHJKLMNPQRSTUVWXYZ23456789".data

/-- `LEN_GLYPHS = len(GLYPHS)` from the source. -/
def LEN_GLYPHS : Nat := GLYPHS.length

/-- The `LETTERS` constant from the source. -/
def LETTERS : List Char := "abcdefghijkmnpqrstuvwxyzABCDEFGHJKLMNPQRSTUVWXYZ".data

/-- The `LOWERCASE` constant from the source. -/
def LOWERCASE : List Char := "abcdefghijkmnpqrstuvwxyz".data

/-- The `UPPERCASE` constant from the source. -/
def UPPERCASE : List Char := "ABCDEFGHJKLMNPQRSTUVWXYZ".data

/-- The `DIGITS` constant from the source. -/
def DIGITS : List Char := "23456789".data

/-- The `HOMOGLYPHS` constant from the source. -/
def HOMOGLYPHS : List Char := "lIoO01".data

/-- UTF-8 encoding of a single character, as the list of its bytes
(each a `Nat` below 256).  Models Python's `bytes(s, encoding='utf-8')`
character by character. -/
def utf8Bytes (c : Char) : List Nat :=
  let n := c.toNat
  if n < 128 then [n]
  else if n < 2048 then
    [192 + n / 64, 128 + n % 64]
  else if n < 65536 then
    [224 + n / 4096, 128 + (n / 64) % 64, 128 + n % 64]
  else
    [240 + n / 262144, 128 + (n / 4096) % 64, 128 + (n / 64) % 64, 128 + n % 64]

/-- UTF-8 encoding of a whole string, modelling `bytes(s, encoding='utf-8')`. -/
def strBytes (s : List Char) : List Nat :=
  (s.map utf8Bytes).flatten

/-- One step of the Adler-32 rolling checksum: fold a byte into the
`(a, b)` pair, both halves kept modulo 65521. -/
def adler32Step (ab : Nat × Nat) (byte : Nat) : Nat × Nat :=
  let a := (ab.1 + byte) % 65521
  (a, (ab.2 + a) % 65521)

/-- `zlib.adler32` over a byte list: start from `(a, b) = (1, 0)`, fold
every byte with `adler32Step`, and return `b * 65536 + a` (a 32-bit value). -/
def adler32 (bytes : List Nat) : Nat :=
  let ab := bytes.foldl adler32Step (1, 0)
  ab.2 * 65536 + ab.1

/-- The checksum character the source appends and checks:
`GLYPHS[zlib.adler32(bytes(payload, encoding='utf-8')) % LEN_GLYPHS]`. -/
def checksumChar (payload : List Char) : Char :=
  GLYPHS.getD (adler32 (strBytes payload) % LEN_GLYPHS) ' '

/-- `isValid(ssToCheck)` from the source, for a string argument: raise
(`Except.error`) when the string is shorter than 2 characters, otherwise
compare the last character with the checksum character recomputed over
`ssToCheck[:-1]`. -/
def isValid (ssToCheck : List Char) : Except String Bool :=
  if ssToCheck.length < 2 then
    Except.error "ssToCheck argument must be a string at least two characters long"
  else
    Except.ok (ssToCheck.getLastD ' ' == checksumChar ssToCheck.dropLast)

/-- A dynamically typed Python value, to model `isValid`'s `isinstance`
check on non-string arguments such as `42`. -/
inductive PyObj where
  | pyStr : String → PyObj
  | pyInt : Int → PyObj
deriving DecidableEq

/-- `isValid` on a dynamically typed argument: the source's guard
`not isinstance(ssToCheck, str) or len(ssToCheck) < 2` raises; otherwise
the string case is handled by `isValid`. -/
def isValidPy : PyObj → Except String Bool
  | PyObj.pyStr s => isValid s.data
  | PyObj.pyInt _ =>
      Except.error "ssToCheck argument must be a string at least two characters long"

/-- The five format specifier characters accepted by the mini-language
(the string `'*clud'` tested by `_checkSSFormatArg`). -/
def FORMAT_CHARS : List Char := "*clud".data

/-- `_checkSSFormatArg(ssformat)` from the source, for a string argument:
error on the empty string, error on any character outside `*clud`,
otherwise return successfully. -/
def checkSSFormatArg (ssformat : List Char) : Except String Unit :=
  if ssformat = [] then
    Except.error "ssformat argument cannot be the empty string"
  else if ssformat.all (fun c => c ∈ FORMAT_CHARS) then
    Except.ok ()
  else
    Except.error "ssformat argument must be a string with only characters star, c, l, u, and d"

/-- The alphabet `generate` draws from for a given format specifier,
mirroring the `if specifier == ...` chain in the source; `none` models the
`raise ShortStrException` branch for an invalid specifier. -/
def specAlphabet (specifier : Char) : Option (List Char) :=
  if specifier = '*' then some GLYPHS
  else if specifier = 'c' then some LETTERS
  else if specifier = 'd' then some DIGITS
  else if specifier = 'l' then some LOWERCASE
  else if specifier = 'u' then some UPPERCASE
  else none

/-- `SYS_RAND.choice(alphabet)` with the entropy modelled by the draw
value: the chosen element is `alphabet[draw % len(alphabet)]`. -/
def randChoice (alphabet : List Char) (draw : Nat) : Char :=
  alphabet.getD (draw % alphabet.length) ' '

/-- The character-drawing loop of `generate`: one character per format
specifier, drawn from the specifier's alphabet with draw `r k` at
position `k`; an invalid specifier raises. -/
def genChars (r : Nat → Nat) : List Char → Nat → Except String (List Char)
  | [], _ => Except.ok []
  | spec :: rest, k =>
    match specAlphabet spec with
    | some alphabet =>
      match genChars r rest (k + 1) with
      | Except.ok tail => Except.ok (randChoice alphabet (r k) :: tail)
      | Except.error e => Except.error e
    | none =>
      Except.error "invalid shortstr format specifier: must be star, c, d, l, or u"

/-- One iteration of `generate`'s `while True` body, without the
repeat-check: draw the characters, then append the checksum character
when `includeChecksum` is true. -/
def generateOnce (ssformat : List Char) (includeChecksum : Bool) (r : Nat → Nat) :
    Except String (List Char) :=
  match genChars r ssformat 0 with
  | Except.error e => Except.error e
  | Except.ok ss =>
      Except.ok (if includeChecksum then ss ++ [checksumChar ss] else ss)

/-- The full `generate` loop observed for at most `fuel` attempts: attempt
number `attempt` uses the draw stream `rs attempt`; `Except.ok none` means
the loop was still running after `fuel` attempts (the source's loop is
unbounded).  With `repeatFunc = none` the first generated string is
returned; otherwise the loop retries while the predicate returns true. -/
def generateFuel (ssformat : List Char) (includeChecksum : Bool)
    (repeatFunc : Option (List Char → Bool)) (rs : Nat → Nat → Nat) :
    Nat → Nat → Except String (Option (List Char))
  | _, 0 => Except.ok none
  | attempt, Nat.succ fuel =>
    match generateOnce ssformat includeChecksum (rs attempt) with
    | Except.error e => Except.error e
    | Except.ok ss =>
      match repeatFunc with
      | none => Except.ok (some ss)
      | some f =>
        if f ss then
          generateFuel ssformat includeChecksum repeatFunc rs (attempt + 1) fuel
        else
          Except.ok (some ss)

deriving instance DecidableEq for Except

/-! Helper lemmas about the embedded definitions. -/

/-- The recomputed checksum character is always a member of the glyph
alphabet, since it is selected by an index reduced modulo `LEN_GLYPHS`. -/
theorem checksumChar_mem (payload : List Char) : checksumChar payload ∈ GLYPHS := by
  unfold checksumChar
  have hpos : 0 < GLYPHS.length := by decide
  have h : adler32 (strBytes payload) % LEN_GLYPHS < GLYPHS.length :=
    Nat.mod_lt _ hpos
  rw [List.getD_eq_getElem GLYPHS ' ' h]
  exact List.getElem_mem h

/-- A draw from a nonempty alphabet lands in that alphabet. -/
theorem randChoice_mem (alphabet : List Char) (draw : Nat) (h : alphabet ≠ []) :
    randChoice alphabet draw ∈ alphabet := by
  unfold randChoice
  have hpos : 0 < alphabet.length := List.length_pos.mpr h
  have hlt : draw % alphabet.length < alphabet.length := Nat.mod_lt _ hpos
  rw [List.getD_eq_getElem alphabet ' ' hlt]
  exact List.getElem_mem hlt

/-- Each of the five accepted format specifiers maps to a nonempty
drawing alphabet. -/
theorem specAlphabet_of_format_char (c : Char) (h : c ∈ FORMAT_CHARS) :
    ∃ alphabet, specAlphabet c = some alphabet ∧ alphabet ≠ [] := by
  simp only [FORMAT_CHARS, String.data] at h
  fin_cases h
  · exact ⟨GLYPHS, rfl, by decide⟩
  · exact ⟨LETTERS, rfl, by decide⟩
  · exact ⟨LOWERCASE, rfl, by decide⟩
  · exact ⟨UPPERCASE, rfl, by decide⟩
  · exact ⟨DIGITS, rfl, by decide⟩

/-- When every specifier of the format is one of the five accepted
characters, the drawing loop succeeds and each output character belongs to
the alphabet selected by the specifier at its position. -/
theorem genChars_ok (r : Nat → Nat) (fmt : List Char)
    (h : ∀ c ∈ fmt, c ∈ FORMAT_CHARS) (k : Nat) :
    ∃ l, genChars r fmt k = Except.ok l ∧
      List.Forall₂
        (fun spec ch => ∃ alphabet, specAlphabet spec = some alphabet ∧ ch ∈ alphabet)
        fmt l := by
  induction fmt generalizing k with
  | nil => exact ⟨[], rfl, List.Forall₂.nil⟩
  | cons spec rest ih =>
    obtain ⟨alphabet, hA, hAne⟩ :=
      specAlphabet_of_format_char spec (h spec (List.mem_cons_self _ _))
    obtain ⟨tail, htail, hrel⟩ := ih (fun c hc => h c (List.mem_cons_of_mem _ hc)) (k + 1)
    refine ⟨randChoice alphabet (r k) :: tail, ?_, ?_⟩
    · simp [genChars, hA, htail]
    · exact List.Forall₂.cons ⟨alphabet, hA, randChoice_mem alphabet (r k) hAne⟩ hrel

/-- Unfolding one attempt of the retry loop when a repeat predicate is
supplied and the attempt's generation succeeds. -/
theorem generateFuel_some_step (fmt : List Char) (ic : Bool) (f : List Char → Bool)
    (rs : Nat → Nat → Nat) (a fuel : Nat) (ss : List Char)
    (h : generateOnce fmt ic (rs a) = Except.ok ss) :
    generateFuel fmt ic (some f) rs a (fuel + 1) =
      if f ss then generateFuel fmt ic (some f) rs (a + 1) fuel
      else Except.ok (some ss) := by
  conv_lhs => unfold generateFuel
  rw [h]

/-- Unfolding one attempt of the retry loop when no repeat predicate is
supplied: the first successfully generated string is returned. -/
theorem generateFuel_none_step (fmt : List Char) (ic : Bool)
    (rs : Nat → Nat → Nat) (a fuel : Nat) (ss : List Char)
    (h : generateOnce fmt ic (rs a) = Except.ok ss) :
    generateFuel fmt ic none rs a (fuel + 1) = Except.ok (some ss) := by
  unfold generateFuel
  rw [h]

/-- Claim C1 (code bug evidence): the source defines `_checkSSFormatArg`,
which rejects the empty format string, but `generate` never calls it: on the
empty format the drawing loop produces no characters and `generate` returns
the one-character string consisting of the checksum of the empty payload,
namely `"b"`, raising no error. -/
theorem generate_skips_empty_format_check :
    (∃ e, checkSSFormatArg [] = Except.error e) ∧
    (∀ r : Nat → Nat, generateOnce [] true r = Except.ok ['b']) ∧
    checksumChar [] = 'b' :=
  ⟨⟨_, rfl⟩, fun _ => rfl, rfl⟩

/-- Claim C3: the Adler-32 checksum of the payload `"QEynb"`, reduced
modulo the glyph-alphabet size 56, is 8; the glyph at index 8 is `i`; hence
`isValid "QEynbi"` is true and `isValid "QEynbX"` is false. -/
theorem checksum_of_QEynb :
    LEN_GLYPHS = 56 ∧
    adler32 (strBytes "QEynb".data) % 56 = 8 ∧
    GLYPHS.getD 8 ' ' = 'i' ∧
    checksumChar "QEynb".data = 'i' ∧
    isValid "QEynbi".data = Except.ok true ∧
    isValid "QEynbX".data = Except.ok false :=
  ⟨rfl, by decide, by decide, by decide, rfl, rfl⟩

/-- Claim C7: the glyph alphabet has exactly 56 distinct characters, none
of them one of the six homoglyphs, and each sub-alphabet is contained in
the glyph alphabet. -/
theorem alphabet_invariant :
    GLYPHS.length = 56 ∧ GLYPHS.Nodup ∧
    (∀ c ∈ GLYPHS, c ∉ HOMOGLYPHS) ∧
    LETTERS ⊆ GLYPHS ∧ LOWERCASE ⊆ GLYPHS ∧ UPPERCASE ⊆ GLYPHS ∧ DIGITS ⊆ GLYPHS := by
  decide

/-- Claim C9: `isValid` checks only the checksum relationship: there is a
string of length at least 2 that contains a character outside the glyph
alphabet (the homoglyph `0`) and on which `isValid` still returns true. -/
theorem isValid_skips_alphabet_check :
    ∃ s : List Char, 2 ≤ s.length ∧ (∃ c ∈ s, c ∉ GLYPHS) ∧ isValid s = Except.ok true :=
  ⟨['0', '3'], by decide, ⟨'0', by decide, by decide⟩, rfl⟩

/-- Claim C2: for every valid format (non-empty, specifiers drawn from the
mini-language) and every draw stream, the string returned by `generate`
with `includeChecksum = true` satisfies `isValid`. -/
theorem generate_isValid_roundtrip (fmt : List Char) (r : Nat → Nat)
    (hne : fmt ≠ []) (hvalid : ∀ c ∈ fmt, c ∈ FORMAT_CHARS) :
    ∃ ss, generateOnce fmt true r = Except.ok ss ∧ isValid ss = Except.ok true := by
  obtain ⟨l, hgen, hrel⟩ := genChars_ok r fmt hvalid 0
  have hlen : fmt.length = l.length := hrel.length_eq
  have hpos : 0 < fmt.length := List.length_pos.mpr hne
  refine ⟨l ++ [checksumChar l], ?_, ?_⟩
  · simp [generateOnce, hgen]
  · unfold isValid
    rw [if_neg (by simp only [List.length_append, List.length_singleton]; omega),
      List.getLastD_concat, List.dropLast_concat]
    simp

/-- Claim C4: for every format whose specifiers all come from the
mini-language and every draw stream, generation without a checksum returns
a string of the format's length whose character at each position lies in
the sub-alphabet selected by the specifier at that position, and
generation with a checksum returns a string one character longer. -/
theorem generate_length_and_class (fmt : List Char) (r : Nat → Nat)
    (hvalid : ∀ c ∈ fmt, c ∈ FORMAT_CHARS) :
    ∃ ss, generateOnce fmt false r = Except.ok ss ∧
      ss.length = fmt.length ∧
      List.Forall₂
        (fun spec ch => ∃ alphabet, specAlphabet spec = some alphabet ∧ ch ∈ alphabet)
        fmt ss ∧
      ∃ ss2, generateOnce fmt true r = Except.ok ss2 ∧ ss2.length = fmt.length + 1 := by
  obtain ⟨l, hgen, hrel⟩ := genChars_ok r fmt hvalid 0
  refine ⟨l, ?_, hrel.length_eq.symm, hrel, l ++ [checksumChar l], ?_, ?_⟩
  · simp [generateOnce, hgen]
  · simp [generateOnce, hgen]
  · simp [hrel.length_eq]

/-- Claim C5: replacing the final character of a string accepted by
`isValid` with any other glyph character (indeed any other character)
produces a string that `isValid` rejects, deterministically. -/
theorem checksum_sensitivity (s : List Char) (c : Char)
    (hok : isValid s = Except.ok true) (hglyph : c ∈ GLYPHS)
    (hne : c ≠ s.getLastD ' ') :
    isValid (s.dropLast ++ [c]) = Except.ok false := by
  unfold isValid at hok ⊢
  by_cases hlen : s.length < 2
  · rw [if_pos hlen] at hok
    exact absurd hok (by simp)
  · rw [if_neg hlen] at hok
    simp only [Except.ok.injEq, beq_iff_eq] at hok
    rw [if_neg (by
        simp only [List.length_append, List.length_dropLast, List.length_singleton]
        omega),
      List.getLastD_concat, List.dropLast_concat]
    simp only [Except.ok.injEq, beq_eq_false_iff_ne]
    rw [← hok]
    exact hne

/-- Claim C10: any string of length at least 2 whose final character lies
outside the glyph alphabet is rejected by `isValid`, because the
recomputed checksum character always lies inside the glyph alphabet. -/
theorem isValid_false_of_last_not_glyph (s : List Char)
    (hlen : 2 ≤ s.length) (hlast : s.getLastD ' ' ∉ GLYPHS) :
    isValid s = Except.ok false := by
  unfold isValid
  rw [if_neg (by omega)]
  simp only [Except.ok.injEq, beq_eq_false_iff_ne]
  intro h
  exact hlast (by rw [h]; exact checksumChar_mem s.dropLast)

/-- Claim C6: `isValid` succeeds exactly on string arguments of at least 2
characters and raises on everything else; in particular the empty string,
a one-character string, and the integer 42 are each rejected with an
error. -/
theorem isValid_input_rejection :
    (∀ o : PyObj, (∃ b, isValidPy o = Except.ok b) ↔
      ∃ s : String, o = PyObj.pyStr s ∧ 2 ≤ s.data.length) ∧
    (∃ e, isValidPy (PyObj.pyStr "") = Except.error e) ∧
    (∃ e, isValidPy (PyObj.pyStr "X") = Except.error e) ∧
    (∃ e, isValidPy (PyObj.pyInt 42) = Except.error e) := by
  refine ⟨?_, ⟨_, rfl⟩, ⟨_, rfl⟩, ⟨_, rfl⟩⟩
  intro o
  cases o with
  | pyInt n =>
    constructor
    · rintro ⟨b, hb⟩
      exact absurd hb (by simp [isValidPy])
    · rintro ⟨s, hs, -⟩
      exact PyObj.noConfusion hs
  | pyStr s =>
    constructor
    · rintro ⟨b, hb⟩
      refine ⟨s, rfl, ?_⟩
      by_contra hlt
      have h2 : s.data.length < 2 := by omega
      change isValid s.data = Except.ok b at hb
      unfold isValid at hb
      rw [if_pos h2] at hb
      exact Except.noConfusion hb
    · rintro ⟨s2, hs2, hlen⟩
      injection hs2 with hs2
      subst hs2
      have h2 : ¬ s.data.length < 2 := by omega
      refine ⟨s.data.getLastD ' ' == checksumChar s.data.dropLast, ?_⟩
      show isValid s.data = _
      unfold isValid
      rw [if_neg h2]

/-- When some attempt among the next `N` produces a string the repeat
predicate rejects (returns false on), the retry loop starting at attempt
`a` with `N` units of fuel stops at the first such attempt and returns its
string. -/
theorem generateFuel_first_false (fmt : List Char) (ic : Bool) (f : List Char → Bool)
    (rs : Nat → Nat → Nat) (strs : Nat → List Char)
    (hstr : ∀ i, generateOnce fmt ic (rs i) = Except.ok (strs i)) :
    ∀ N a, (∃ i, i < N ∧ f (strs (a + i)) = false) →
      ∃ j, j < N ∧
        generateFuel fmt ic (some f) rs a N = Except.ok (some (strs (a + j))) ∧
        f (strs (a + j)) = false ∧
        ∀ i, i < j → f (strs (a + i)) = true := by
  intro N
  induction N with
  | zero =>
    rintro a ⟨i, hi, -⟩
    exact absurd hi (Nat.not_lt_zero i)
  | succ N ih =>
    rintro a ⟨i, hi, hf⟩
    by_cases h0 : f (strs a) = true
    · have hi0 : i ≠ 0 := by
        intro h
        subst h
        rw [Nat.add_zero] at hf
        rw [h0] at hf
        exact Bool.noConfusion hf
      obtain ⟨i2, rfl⟩ := Nat.exists_eq_succ_of_ne_zero hi0
      obtain ⟨j, hj, hrun, hjf, hfirst⟩ := ih (a + 1)
        ⟨i2, by omega, by rw [show a + 1 + i2 = a + (i2 + 1) by omega]; exact hf⟩
      refine ⟨j + 1, by omega, ?_, ?_, ?_⟩
      · rw [generateFuel_some_step fmt ic f rs a N (strs a) (hstr a), if_pos h0,
          show a + (j + 1) = a + 1 + j by omega]
        exact hrun
      · rw [show a + (j + 1) = a + 1 + j by omega]
        exact hjf
      · intro i3 hi3
        cases i3 with
        | zero =>
          rw [Nat.add_zero]
          exact h0
        | succ i4 =>
          rw [show a + (i4 + 1) = a + 1 + i4 by omega]
          exact hfirst i4 (by omega)
    · have h0f : f (strs a) = false := by
        revert h0
        cases f (strs a) <;> simp
      refine ⟨0, Nat.succ_pos N, ?_, ?_, fun i3 hi3 => absurd hi3 (Nat.not_lt_zero i3)⟩
      · rw [generateFuel_some_step fmt ic f rs a N (strs a) (hstr a), if_neg h0, Nat.add_zero]
      · rw [Nat.add_zero]
        exact h0f

/-- Claim C8: if the repeat predicate returns false for one of the first
`N` generated strings, the retry loop returns within `N` attempts with
exactly the first generated string the predicate rejected; with no
predicate supplied the first generated string is returned at once. -/
theorem repeat_check_termination (fmt : List Char) (ic : Bool) (f : List Char → Bool)
    (rs : Nat → Nat → Nat) (strs : Nat → List Char)
    (hstr : ∀ i, generateOnce fmt ic (rs i) = Except.ok (strs i))
    (N : Nat) (hN : ∃ i, i < N ∧ f (strs i) = false) :
    (∃ j, j < N ∧
      generateFuel fmt ic (some f) rs 0 N = Except.ok (some (strs j)) ∧
      f (strs j) = false ∧ ∀ i, i < j → f (strs i) = true) ∧
    generateFuel fmt ic none rs 0 1 = Except.ok (some (strs 0)) := by
  constructor
  · obtain ⟨i, hi, hf⟩ := hN
    obtain ⟨j, hj, hrun, hjf, hfirst⟩ := generateFuel_first_false fmt ic f rs strs hstr N 0
      ⟨i, hi, by rw [Nat.zero_add]; exact hf⟩
    rw [Nat.zero_add] at hrun hjf
    refine ⟨j, hj, hrun, hjf, fun i3 hi3 => ?_⟩
    have := hfirst i3 hi3
    rwa [Nat.zero_add] at this
  · exact generateFuel_none_step fmt ic rs 0 0 (strs 0) (hstr 0)

/-- Witness for claim C2 at the concrete format `"*"` and the all-zero
draw stream. -/
theorem generate_isValid_roundtrip_witness :
    ∃ ss, generateOnce ['*'] true (fun _ => 0) = Except.ok ss ∧
      isValid ss = Except.ok true :=
  generate_isValid_roundtrip ['*'] (fun _ => 0) (by decide) (by decide)

/-- Witness for claim C4 at the concrete format `"d"` and the all-zero
draw stream. -/
theorem generate_length_and_class_witness :
    ∃ ss, generateOnce ['d'] false (fun _ => 0) = Except.ok ss ∧
      ss.length = (['d'] : List Char).length ∧
      List.Forall₂
        (fun spec ch => ∃ alphabet, specAlphabet spec = some alphabet ∧ ch ∈ alphabet)
        ['d'] ss ∧
      ∃ ss2, generateOnce ['d'] true (fun _ => 0) = Except.ok ss2 ∧
        ss2.length = (['d'] : List Char).length + 1 :=
  generate_length_and_class ['d'] (fun _ => 0) (by decide)

/-- Witness for claim C5 at the concrete valid string `"QEynbi"` with its
checksum character replaced by the glyph `a`. -/
theorem checksum_sensitivity_witness :
    isValid (("QEynbi".data).dropLast ++ ['a']) = Except.ok false :=
  checksum_sensitivity "QEynbi".data 'a' rfl (by decide) (by decide)

/-- Witness for claim C8 at the concrete format `"*"`, the all-zero draw
streams, and the constantly-false repeat predicate, with one unit of
fuel. -/
theorem repeat_check_termination_witness :
    (∃ j, j < 1 ∧
      generateFuel ['*'] true (some (fun _ => false)) (fun _ _ => 0) 0 1 =
        Except.ok (some ['a', 'U']) ∧
      false = false ∧ ∀ i, i < j → false = true) ∧
    generateFuel ['*'] true none (fun _ _ => 0) 0 1 = Except.ok (some ['a', 'U']) :=
  repeat_check_termination ['*'] true (fun _ => false) (fun _ _ => 0) (fun _ => ['a', 'U'])
    (fun _ => by
      show generateOnce ['*'] true (fun _ => 0) = Except.ok ['a', 'U']
      rfl)
    1 ⟨0, Nat.zero_lt_one, rfl⟩

/-- Witness for claim C10 at the concrete string `"ab0"`, whose final
character is the homoglyph `0`. -/
theorem isValid_false_of_last_not_glyph_witness :
    isValid ['a', 'b', '0'] = Except.ok false :=
  isValid_false_of_last_not_glyph ['a', 'b', '0'] (by decide) (by decide)
